import Mathlib

/-!
Shallow embedding of the tip-calculator core (src/app.py).

Arithmetic is modelled over the exact rationals: the Python program uses
binary floats, and every spec-level property is stated up to floating-point
epsilon; the rational model is the idealised semantics those statements
refer to.

The history backing store (tip_history.json) is modelled by an explicit
JSON value type, because load_history returns whatever json.load parses,
not only well-formed history arrays.
-/

namespace TipCalc

/-- JSON values as produced by Python json.load; numbers are idealised as
rationals, objects as association lists in file order. -/
inductive Json where
  | null : Json
  | bool (b : Bool) : Json
  | num (q : ℚ) : Json
  | str (s : String) : Json
  | arr (l : List Json) : Json
  | obj (l : List (String × Json)) : Json

/-- Python len() on a parsed JSON value: lists, strings and dicts have a
length; numbers, booleans and None raise TypeError (modelled as none). -/
def jlen : Json → Option ℕ
  | Json.arr l => some l.length
  | Json.str s => some s.length
  | Json.obj l => some l.length
  | _ => none

/-- Python subscript h[i] for a nonnegative index: list indexing, string
indexing (yielding a one-character string); dict subscript with an integer
key raises KeyError and other types raise TypeError (modelled as none). -/
def jindex : Json → ℕ → Option Json
  | Json.arr l, i => l.get? i
  | Json.str s, i => (s.toList.get? i).map (fun c => Json.str c.toString)
  | _, _ => none

/-- Python item.get(k) on a dict: the value at k, or None when the key is
missing (inner none); on a non-dict value .get raises AttributeError
(outer none). -/
def jget (j : Json) (k : String) : Option (Option Json) :=
  match j with
  | Json.obj l => some (l.lookup k)
  | _ => none

/-- Python item.get(k, d) on a dict: the value at k, or the default d when
the key is missing; on a non-dict value .get raises AttributeError
(modelled as none). -/
def jgetD (j : Json) (k : String) (d : Json) : Option Json :=
  match j with
  | Json.obj l => some ((l.lookup k).getD d)
  | _ => none

/-- State of the backing store file tip_history.json: absent, present but
unreadable (for example a permission error), or present with content that
either fails to parse as JSON (content none) or parses to a JSON value. -/
inductive FileState where
  | missing : FileState
  | unreadable : FileState
  | content (parsed : Option Json) : FileState

/-- Embedding of load_history (src/app.py lines 25-30): open and json.load
the history file, returning the parsed JSON value; any exception (missing
file, read error, JSON parse error) yields the empty list. -/
def load_history : FileState → Json
  | FileState.content (some j) => j
  | _ => Json.arr []

/-- Embedding of save_history (src/app.py lines 33-42): reload the history,
insert the entry at index 0, truncate to the first 20 entries, and rewrite
the whole file; only the write is guarded by try/except, so the write
failure (writable = false) is swallowed, while h.insert on a non-list
value loaded from the file raises an uncaught AttributeError (modelled as
none). -/
def save_history (entry : Json) (fs : FileState) (writable : Bool) :
    Option FileState :=
  match load_history fs with
  | Json.arr l =>
      let h := (entry :: l).take 20
      some (if writable then FileState.content (some (Json.arr h)) else fs)
  | _ => none

/-- Sequential composition of save_history calls, in call order, stopping
at the first uncaught exception. -/
def appendMany : List Json → FileState → Option FileState
  | [], fs => some fs
  | e :: es, fs =>
      match save_history e fs true with
      | none => none
      | some fs2 => appendMany es fs2

/-- History file whose content is the well-formed history array l. -/
def storeOf (l : List Json) : FileState :=
  FileState.content (some (Json.arr l))

/-- History file holding an empty history array. -/
def emptyStore : FileState := storeOf []

/-- Round-half-to-even of a rational to the nearest integer, the rounding
mode of Python round() and of the "%.2f" style format specifiers. -/
def roundHalfEven (x : ℚ) : ℤ :=
  let f := ⌊x⌋
  if x - f < 1 / 2 then f
  else if x - f > 1 / 2 then f + 1
  else if Even f then f else f + 1

/-- Value displayed by formatting with two decimal places, and stored by
round(x, 2): round half to even at the cent. -/
def fmt2 (q : ℚ) : ℚ := (roundHalfEven (q * 100) : ℚ) / 100

/-- Value displayed by formatting with one decimal place: round half to
even at the tenth. -/
def fmt1 (q : ℚ) : ℚ := (roundHalfEven (q * 10) : ℚ) / 10

/-- Python int() applied to a number: truncation toward zero. -/
def ratTrunc (q : ℚ) : ℤ := if 0 ≤ q then ⌊q⌋ else ⌈q⌉

/-- Validation errors raised to the user by TipCalculator.calculate
(src/app.py lines 178-197), one per messagebox.showerror call. -/
inductive CalcError where
  | InvalidBill : CalcError
  | NegativeBill : CalcError
  | InvalidPartySize : CalcError
deriving DecidableEq

/-- Derived quantities computed by TipCalculator.calculate
(src/app.py lines 199-204). -/
structure CalcResult where
  tipAmount : ℚ
  total : ℚ
  perPerson : ℚ
deriving DecidableEq

/-- Embedding of the arithmetic core of TipCalculator.calculate
(src/app.py lines 199-204): tip_amount = bill * (tip_percent / 100),
total_bill = bill + tip_amount, per_person = total_bill / people, and when
round_var is set, per_person = math.ceil(per_person * 100) / 100. -/
def computeCore (bill tip : ℚ) (people : ℤ) (roundUp : Bool) : CalcResult :=
  let tipAmount := bill * (tip / 100)
  let total := bill + tipAmount
  let pp := total / (people : ℚ)
  { tipAmount := tipAmount
    total := total
    perPerson := if roundUp then (⌈pp * 100⌉ : ℚ) / 100 else pp }

/-- Embedding of the validation-then-compute path of
TipCalculator.calculate (src/app.py lines 178-204). The bill entry text is
modelled by the result of float() on it (none when it does not parse as a
number); the people spinbox by the result of int(self.people_var.get())
(none when the Tk variable read or int() raises). Checks run in source
order: bill parse, bill < 0, people parse combined with people < 1. -/
def tipCompute (billIn : Option ℚ) (tip : ℚ) (peopleIn : Option ℤ)
    (roundUp : Bool) : Except CalcError CalcResult :=
  match billIn with
  | none => Except.error CalcError.InvalidBill
  | some bill =>
      if bill < 0 then Except.error CalcError.NegativeBill
      else
        match peopleIn with
        | none => Except.error CalcError.InvalidPartySize
        | some people =>
            if people < 1 then Except.error CalcError.InvalidPartySize
            else Except.ok (computeCore bill tip people roundUp)

/-- Success flag of a validation outcome. -/
def isOkE : Except CalcError CalcResult → Bool
  | Except.ok _ => true
  | Except.error _ => false

/-- Key of the timestamp field of a history record. -/
def kTime : String := "time"

/-- Key of the bill field of a history record. -/
def kBill : String := "bill"

/-- Key of the tip-percent field of a history record. -/
def kTipPercent : String := "tip_percent"

/-- Key of the party-size field of a history record. -/
def kPeople : String := "people"

/-- Key of the per-person field of a history record. -/
def kPerPerson : String := "per_person"

/-- Key of the total field of a history record. -/
def kTotal : String := "total"

/-- Default currency text. -/
def defaultCurrency : String := "$"

/-- Data shown by the result label after a successful calculation
(src/app.py lines 206-213), with each number carried at the precision the
f-string renders: bill, tip amount, total and per-person at two decimal
places, the tip percent at one. Rendering these fields to the final text
is presentation glue and is not modelled further. -/
structure ResultDisplay where
  currency : String
  bill : ℚ
  tipPercent : ℚ
  tipAmount : ℚ
  total : ℚ
  people : ℤ
  perPerson : ℚ
deriving DecidableEq

/-- The result display built by TipCalculator.calculate on success,
including the fallback of the empty currency text to the dollar sign. -/
def mkDisplay (c : String) (bill tip : ℚ) (people : ℤ) (r : CalcResult) :
    ResultDisplay :=
  { currency := if c = "" then defaultCurrency else c
    bill := fmt2 bill
    tipPercent := fmt1 tip
    tipAmount := fmt2 r.tipAmount
    total := fmt2 r.total
    people := people
    perPerson := fmt2 r.perPerson }

/-- The history entry dict built by TipCalculator.calculate
(src/app.py lines 216-223): time from int(time.time()), currency values
rounded with round(x, 2). -/
def entryJson (now : ℤ) (bill tip : ℚ) (people : ℤ) (r : CalcResult) :
    Json :=
  Json.obj
    [(kTime, Json.num now),
     (kBill, Json.num (fmt2 bill)),
     (kTipPercent, Json.num (fmt2 tip)),
     (kPeople, Json.num people),
     (kPerPerson, Json.num (fmt2 r.perPerson)),
     (kTotal, Json.num (fmt2 r.total))]

/-- Abstract state of the application as the claims see it: the parse of
the bill entry text, the tip variable, the parse of the people spinbox,
the round-up toggle, the currency text, the displayed result (none while
the label still shows "No calculation yet"), the history file, whether
the history file is writable, and the current clock reading. -/
structure AppState where
  billIn : Option ℚ
  tipVal : ℚ
  peopleIn : Option ℤ
  roundUp : Bool
  currency : String
  resultText : Option ResultDisplay
  fs : FileState
  writable : Bool
  now : ℤ

/-- Embedding of the TipCalculator.calculate callback
(src/app.py lines 178-225): validate in source order, showing one specific
error and returning with the state untouched on failure (the error shown
is the second component); on success compute, set the result label, build
the history entry and call save_history. The outer none marks an uncaught
exception escaping save_history (history file holding valid JSON that is
not a list). The trailing listbox refresh reads the store without
changing it and is not modelled. -/
def calculateStep (st : AppState) : Option (AppState × Option CalcError) :=
  match st.billIn with
  | none => some (st, some CalcError.InvalidBill)
  | some bill =>
      if bill < 0 then some (st, some CalcError.NegativeBill)
      else
        match st.peopleIn with
        | none => some (st, some CalcError.InvalidPartySize)
        | some people =>
            if people < 1 then some (st, some CalcError.InvalidPartySize)
            else
              let r := computeCore bill st.tipVal people st.roundUp
              let st1 := { st with
                resultText :=
                  some (mkDisplay st.currency bill st.tipVal people r) }
              match save_history (entryJson st.now bill st.tipVal people r)
                  st1.fs st1.writable with
              | none => none
              | some fs2 => some ({ st1 with fs := fs2 }, none)

/-- Embedding of TipCalculator.load_selected_history
(src/app.py lines 254-266): sel models the listbox selection (none when
nothing is selected, in which case the method returns at once); otherwise
the history is reloaded, the index is compared against len(h) and the
method returns when it is out of range; in range, the record subscript and
its field reads repopulate the bill text (formatted at two decimals), the
tip variable via float() and the people variable via int(), with defaults
15 and 1 for missing tip and people keys. The outer none marks an uncaught
exception (len, subscript, .get or a conversion on a non-number field
raising); the partially updated state of such a crash is not tracked.
Numeric record fields are modelled as JSON numbers; Python would also
accept numeric strings in float() and int(), which the model folds into
the crash case. -/
def loadSelectedStep (sel : Option ℕ) (st : AppState) : Option AppState :=
  match sel with
  | none => some st
  | some idx =>
      let h := load_history st.fs
      match jlen h with
      | none => none
      | some n =>
          if n ≤ idx then some st
          else
            match jindex h idx with
            | none => none
            | some item =>
                match jget item kBill with
                | none => none
                | some none => none
                | some (some jb) =>
                    match jb with
                    | Json.num b =>
                        match jgetD item kTipPercent (Json.num 15) with
                        | some (Json.num t) =>
                            match jgetD item kPeople (Json.num 1) with
                            | some (Json.num p) =>
                                some { st with
                                  billIn := some (fmt2 b)
                                  tipVal := t
                                  peopleIn := some (ratTrunc p) }
                            | _ => none
                        | _ => none
                    | _ => none

end TipCalc

namespace TipCalc

/-- C1: for every bill at least 0, tip percent at least 0 and integer party
size at least 1, the calculation yields tipAmount = bill * tipPercent / 100,
total = bill + tipAmount, and with rounding disabled perPerson =
total / partySize, so that perPerson * partySize equals total exactly in the
rational model; in particular bill 50, tip 15 percent, party of 2 without
rounding gives tipAmount 7.50, total 57.50 and perPerson 28.75. -/
theorem calculate_noround_formulas (bill tip : ℚ) (people : ℤ)
    (hb : 0 ≤ bill) (ht : 0 ≤ tip) (hp : 1 ≤ people) :
    (computeCore bill tip people false).tipAmount = bill * tip / 100 ∧
    (computeCore bill tip people false).total = bill + bill * tip / 100 ∧
    (computeCore bill tip people false).perPerson =
      (computeCore bill tip people false).total / (people : ℚ) ∧
    (computeCore bill tip people false).perPerson * (people : ℚ) =
      (computeCore bill tip people false).total ∧
    computeCore 50 15 2 false =
      { tipAmount := 7.5, total := 57.5, perPerson := 28.75 } := by
  have hp0 : ((people : ℚ)) ≠ 0 := by
    have h1 : (0 : ℤ) < people := lt_of_lt_of_le zero_lt_one hp
    exact_mod_cast h1.ne.symm
  refine ⟨?_, ?_, ?_, ?_, ?_⟩
  · simp only [computeCore]
    ring
  · simp only [computeCore]
    ring
  · simp only [computeCore, Bool.false_eq_true, if_false]
  · simp only [computeCore, Bool.false_eq_true, if_false]
    exact div_mul_cancel₀ _ hp0
  · norm_num [computeCore]

/-- C1 witness: the theorem instantiated at bill 50, tip 15, party 2. -/
theorem calculate_noround_formulas_witness :
    (0 : ℚ) ≤ 50 ∧ (0 : ℚ) ≤ 15 ∧ (1 : ℤ) ≤ 2 ∧
    ((computeCore 50 15 2 false).tipAmount = 50 * 15 / 100 ∧
     (computeCore 50 15 2 false).total = 50 + 50 * 15 / 100 ∧
     (computeCore 50 15 2 false).perPerson =
       (computeCore 50 15 2 false).total / ((2 : ℤ) : ℚ) ∧
     (computeCore 50 15 2 false).perPerson * ((2 : ℤ) : ℚ) =
       (computeCore 50 15 2 false).total ∧
     computeCore 50 15 2 false =
       { tipAmount := 7.5, total := 57.5, perPerson := 28.75 }) :=
  ⟨by norm_num, by norm_num, by norm_num,
   calculate_noround_formulas 50 15 2 (by norm_num) (by norm_num)
     (by norm_num)⟩

/-- C10: for fixed bill, tip percent and party size, the tip amount and the
total are identical whether the round-up flag is set or not; the flag only
affects the per-person output. -/
theorem roundflag_only_affects_perperson (bill tip : ℚ) (people : ℤ) :
    (computeCore bill tip people true).tipAmount =
      (computeCore bill tip people false).tipAmount ∧
    (computeCore bill tip people true).total =
      (computeCore bill tip people false).total :=
  ⟨rfl, rfl⟩

/-- C2: with rounding enabled the per-person share is the raw share with
its value taken up to the next cent: it equals ceil(raw * 100) / 100, is an
exact multiple of 0.01, covers the total (perPerson * partySize is at least
total), and is the smallest multiple of 0.01 doing so. -/
theorem calculate_roundup_ceiling (bill tip : ℚ) (people : ℤ)
    (hb : 0 ≤ bill) (ht : 0 ≤ tip) (hp : 1 ≤ people) :
    (computeCore bill tip people true).perPerson =
      (⌈(computeCore bill tip people false).perPerson * 100⌉ : ℚ) / 100 ∧
    (∃ k : ℤ, (computeCore bill tip people true).perPerson = (k : ℚ) / 100) ∧
    (computeCore bill tip people true).total ≤
      (computeCore bill tip people true).perPerson * (people : ℚ) ∧
    (∀ k : ℤ,
      (computeCore bill tip people true).total ≤ (k : ℚ) / 100 * (people : ℚ) →
      (computeCore bill tip people true).perPerson ≤ (k : ℚ) / 100) := by
  have hppos : (0 : ℚ) < (people : ℚ) := by
    have h1 : (0 : ℤ) < people := lt_of_lt_of_le zero_lt_one hp
    exact_mod_cast h1
  have hraw : (computeCore bill tip people false).perPerson =
      (computeCore bill tip people true).total / (people : ℚ) := by
    simp only [computeCore, Bool.false_eq_true, if_false]
  have hpp : (computeCore bill tip people true).perPerson =
      (⌈(computeCore bill tip people true).total / (people : ℚ) * 100⌉ : ℚ)
        / 100 := by
    simp only [computeCore, if_true]
  refine ⟨?_, ?_, ?_, ?_⟩
  · rw [hpp, hraw]
  · exact ⟨⌈(computeCore bill tip people true).total / (people : ℚ) * 100⌉,
      hpp⟩
  · rw [hpp]
    have hceil : (computeCore bill tip people true).total / (people : ℚ) ≤
        (⌈(computeCore bill tip people true).total / (people : ℚ) * 100⌉ : ℚ)
          / 100 := by
      rw [le_div_iff₀ (by norm_num : (0 : ℚ) < 100)]
      exact Int.le_ceil _
    calc (computeCore bill tip people true).total
        = (computeCore bill tip people true).total / (people : ℚ) *
            (people : ℚ) := (div_mul_cancel₀ _ hppos.ne.symm).symm
      _ ≤ (⌈(computeCore bill tip people true).total / (people : ℚ) * 100⌉ :
            ℚ) / 100 * (people : ℚ) :=
          mul_le_mul_of_nonneg_right hceil hppos.le
  · intro k hk
    rw [hpp]
    have h1 : (computeCore bill tip people true).total / (people : ℚ) ≤
        (k : ℚ) / 100 := by
      rw [div_le_iff₀ hppos]
      exact hk
    have h2 : (computeCore bill tip people true).total / (people : ℚ) * 100 ≤
        (k : ℚ) := by
      calc (computeCore bill tip people true).total / (people : ℚ) * 100
          ≤ (k : ℚ) / 100 * 100 :=
            mul_le_mul_of_nonneg_right h1 (by norm_num)
        _ = (k : ℚ) := by ring
    have h3 : ⌈(computeCore bill tip people true).total / (people : ℚ) *
        100⌉ ≤ k := Int.ceil_le.mpr h2
    have h4 : (⌈(computeCore bill tip people true).total / (people : ℚ) *
        100⌉ : ℚ) ≤ (k : ℚ) := by exact_mod_cast h3
    gcongr

/-- C2 witness: the theorem instantiated at bill 50, tip 15, party 3, where
the raw share 19.1666... rounds up to 19.17. -/
theorem calculate_roundup_ceiling_witness :
    (0 : ℚ) ≤ 50 ∧ (0 : ℚ) ≤ 15 ∧ (1 : ℤ) ≤ 3 ∧
    ((computeCore 50 15 3 true).perPerson =
       (⌈(computeCore 50 15 3 false).perPerson * 100⌉ : ℚ) / 100 ∧
     (∃ k : ℤ, (computeCore 50 15 3 true).perPerson = (k : ℚ) / 100) ∧
     (computeCore 50 15 3 true).total ≤
       (computeCore 50 15 3 true).perPerson * ((3 : ℤ) : ℚ) ∧
     (∀ k : ℤ,
       (computeCore 50 15 3 true).total ≤ (k : ℚ) / 100 * ((3 : ℤ) : ℚ) →
       (computeCore 50 15 3 true).perPerson ≤ (k : ℚ) / 100)) :=
  ⟨by norm_num, by norm_num, by norm_num,
   calculate_roundup_ceiling 50 15 3 (by norm_num) (by norm_num)
     (by norm_num)⟩

/-- C9: the tip percent is never validated: for every tip value, including
values outside the slider range reaching the calculation through a history
reload, the computation succeeds whenever bill and party size are valid,
and whether validation succeeds never depends on the tip value. -/
theorem tip_percent_unvalidated (bill tip : ℚ) (people : ℤ) (roundUp : Bool)
    (hb : 0 ≤ bill) (hp : 1 ≤ people) :
    tipCompute (some bill) tip (some people) roundUp =
      Except.ok (computeCore bill tip people roundUp) ∧
    (∀ (billIn : Option ℚ) (t1 t2 : ℚ) (peopleIn : Option ℤ) (r : Bool),
      isOkE (tipCompute billIn t1 peopleIn r) =
        isOkE (tipCompute billIn t2 peopleIn r)) := by
  constructor
  · simp only [tipCompute, not_lt.mpr hb, if_false, not_lt.mpr hp]
  · intro billIn t1 t2 peopleIn r
    cases billIn with
    | none => rfl
    | some b =>
        cases peopleIn with
        | none => simp only [tipCompute]
        | some p =>
            by_cases hb2 : b < 0 <;> by_cases hp2 : p < 1 <;>
              simp [tipCompute, hb2, hp2, isOkE]

/-- C9 witness: the theorem instantiated at bill 50, tip 500 (far outside
the slider range), party 2, no rounding. -/
theorem tip_percent_unvalidated_witness :
    (0 : ℚ) ≤ 50 ∧ (1 : ℤ) ≤ 2 ∧
    (tipCompute (some 50) 500 (some 2) false =
       Except.ok (computeCore 50 500 2 false) ∧
     (∀ (billIn : Option ℚ) (t1 t2 : ℚ) (peopleIn : Option ℤ) (r : Bool),
       isOkE (tipCompute billIn t1 peopleIn r) =
         isOkE (tipCompute billIn t2 peopleIn r))) :=
  ⟨by norm_num, by norm_num,
   tip_percent_unvalidated 50 500 2 false (by norm_num) (by norm_num)⟩

/-- C3: validation fails with a distinct user-facing error, and never a
crash, in exactly these cases: InvalidBill exactly when the bill text does
not parse as a number; NegativeBill exactly when the parsed bill is
negative; InvalidPartySize exactly when, the bill being valid, the party
size does not parse as an integer or is below 1; in every remaining case
the computation succeeds. -/
theorem validation_error_characterization (billIn : Option ℚ) (tip : ℚ)
    (peopleIn : Option ℤ) (roundUp : Bool) :
    (tipCompute billIn tip peopleIn roundUp =
        Except.error CalcError.InvalidBill ↔ billIn = none) ∧
    (tipCompute billIn tip peopleIn roundUp =
        Except.error CalcError.NegativeBill ↔
      ∃ b, billIn = some b ∧ b < 0) ∧
    (tipCompute billIn tip peopleIn roundUp =
        Except.error CalcError.InvalidPartySize ↔
      ∃ b, billIn = some b ∧ 0 ≤ b ∧
        (peopleIn = none ∨ ∃ p, peopleIn = some p ∧ p < 1)) ∧
    ((∃ r, tipCompute billIn tip peopleIn roundUp = Except.ok r) ↔
      ∃ b p, billIn = some b ∧ 0 ≤ b ∧ peopleIn = some p ∧ 1 ≤ p) := by
  cases billIn with
  | none => simp [tipCompute]
  | some b =>
      by_cases hb : b < 0
      · simp [tipCompute, hb, not_le.mpr hb]
      · cases peopleIn with
        | none => simp [tipCompute, hb, not_lt.mp hb]
        | some p =>
            by_cases hp : p < 1
            · simp [tipCompute, hb, hp, not_lt.mp hb]
            · simp [tipCompute, hb, hp, not_lt.mp hb, not_lt.mp hp]

/-- C4 counterexample: the file content 42 is valid JSON that is not a
well-formed history array, yet load_history returns it unchanged instead
of the empty sequence. -/
theorem load_history_nonlist_counterexample :
    load_history (FileState.content (some (Json.num 42))) = Json.num 42 ∧
    Json.num 42 ≠ Json.arr [] :=
  ⟨rfl, fun h => nomatch h⟩

/-- C4 amended: load_history returns the empty sequence, raising no error,
when the file is missing, unreadable, or its content fails to parse as
JSON; content that parses as JSON is returned as-is, even when it is not a
well-formed history array. -/
theorem load_history_read_failure_empty :
    load_history FileState.missing = Json.arr [] ∧
    load_history FileState.unreadable = Json.arr [] ∧
    load_history (FileState.content none) = Json.arr [] ∧
    ∀ j : Json, load_history (FileState.content (some j)) = j :=
  ⟨rfl, rfl, rfl, fun _ => rfl⟩

lemma take_append_take (A B : List Json) (n : ℕ) :
    (A ++ B.take n).take n = (A ++ B).take n := by
  rw [List.take_append_eq_append_take, List.take_append_eq_append_take,
    List.take_take]
  congr 2
  omega

lemma appendMany_ok (es : List Json) : ∀ l : List Json, l.length ≤ 20 →
    appendMany es (storeOf l) = some (storeOf ((es.reverse ++ l).take 20)) := by
  induction es with
  | nil =>
      intro l hl
      simp [appendMany, List.take_of_length_le hl]
  | cons e es ih =>
      intro l hl
      have hstep : appendMany (e :: es) (storeOf l) =
          appendMany es (storeOf ((e :: l).take 20)) := rfl
      rw [hstep, ih ((e :: l).take 20) (List.length_take_le 20 _)]
      congr 2
      rw [take_append_take, List.reverse_cons, List.append_assoc,
        List.singleton_append]

/-- C5: an append inserts the new record at the front, truncates to 20
entries and rewrites the whole store, so the new record is first and the
at-most-20 bound holds after every append; 21 sequential appends of
distinct records onto an empty store leave exactly 20 records, with the
first (oldest) appended record no longer present. -/
theorem history_append_truncation (e : Json) (fs : FileState)
    (l : List Json) (hl : load_history fs = Json.arr l) (es : List Json)
    (h21 : es.length = 21) (hnd : es.Nodup) :
    save_history e fs true = some (storeOf ((e :: l).take 20)) ∧
    ((e :: l).take 20).head? = some e ∧
    ((e :: l).take 20).length ≤ 20 ∧
    (∃ m : List Json, appendMany es emptyStore = some (storeOf m) ∧
      m.length = 20 ∧ ∀ e0, es.head? = some e0 → e0 ∉ m) := by
  refine ⟨?_, ?_, ?_, ?_⟩
  · simp only [save_history, hl, if_true, storeOf]
  · rfl
  · rw [List.length_take]
    exact min_le_left _ _
  · have hbase := appendMany_ok es [] (by norm_num)
    rw [List.append_nil] at hbase
    refine ⟨es.reverse.take 20, hbase, ?_, ?_⟩
    · rw [List.length_take, List.length_reverse, h21]
      omega
    · intro e0 he0
      cases es with
      | nil => exact absurd he0 (by simp)
      | cons a rest =>
          have ha : a = e0 := by
            simpa using he0
          subst ha
          have hrest : rest.length = 20 := by
            simpa using h21
          have hrev : ((a :: rest).reverse).take 20 = rest.reverse := by
            rw [List.reverse_cons, List.take_append_eq_append_take,
              List.length_reverse, hrest]
            simp [List.take_of_length_le, hrest]
          rw [hrev]
          intro hmem
          have : a ∈ rest := List.mem_reverse.mp hmem
          exact (List.nodup_cons.mp hnd).1 this

/-- History records used below: twenty-one pairwise distinct JSON numbers. -/
def es21 : List Json := (List.range 21).map (fun n : ℕ => Json.num (n : ℚ))

lemma es21_nodup : es21.Nodup := by
  have hinj : Function.Injective (fun n : ℕ => Json.num (n : ℚ)) := by
    intro a b hab
    injection hab with h
    exact_mod_cast h
  exact List.Nodup.map hinj (List.nodup_range 21)

lemma es21_length : es21.length = 21 := by
  unfold es21
  rw [List.length_map, List.length_range]

/-- C5 witness: the theorem instantiated at a single record appended to the
empty store, and at the twenty-one distinct records of es21. -/
theorem history_append_truncation_witness :
    load_history emptyStore = Json.arr [] ∧ es21.length = 21 ∧
    es21.Nodup ∧
    (save_history (Json.num 100) emptyStore true =
       some (storeOf ((Json.num 100 :: ([] : List Json)).take 20)) ∧
     ((Json.num 100 :: ([] : List Json)).take 20).head? =
       some (Json.num 100) ∧
     ((Json.num 100 :: ([] : List Json)).take 20).length ≤ 20 ∧
     (∃ m : List Json, appendMany es21 emptyStore = some (storeOf m) ∧
       m.length = 20 ∧ ∀ e0, es21.head? = some e0 → e0 ∉ m)) :=
  ⟨rfl, es21_length, es21_nodup,
   history_append_truncation (Json.num 100) emptyStore [] rfl es21
     es21_length es21_nodup⟩

/-- C7: whenever validation fails, the calculate callback reports that
specific error and changes nothing: the returned state is the input state,
so the history store and the previously displayed result are untouched. -/
theorem calculate_validation_noop (st : AppState) (e : CalcError)
    (h : tipCompute st.billIn st.tipVal st.peopleIn st.roundUp =
      Except.error e) :
    calculateStep st = some (st, some e) := by
  cases hbill : st.billIn with
  | none =>
      simp only [tipCompute, hbill] at h
      injection h with h2
      simp only [calculateStep, hbill, h2]
  | some bill =>
      by_cases hneg : bill < 0
      · simp only [tipCompute, hbill, if_pos hneg] at h
        injection h with h2
        simp only [calculateStep, hbill, if_pos hneg, h2]
      · cases hpe : st.peopleIn with
        | none =>
            simp only [tipCompute, hbill, if_neg hneg, hpe] at h
            injection h with h2
            simp only [calculateStep, hbill, if_neg hneg, hpe, h2]
        | some p =>
            by_cases hlt : p < 1
            · simp only [tipCompute, hbill, if_neg hneg, hpe,
                if_pos hlt] at h
              injection h with h2
              simp only [calculateStep, hbill, if_neg hneg, hpe,
                if_pos hlt, h2]
            · simp only [tipCompute, hbill, if_neg hneg, hpe,
                if_neg hlt] at h
              exact absurd h (by simp)

/-- Application state used to witness the validation no-op: the bill text
does not parse. -/
def st0 : AppState :=
  { billIn := none, tipVal := 15, peopleIn := some 1, roundUp := false,
    currency := defaultCurrency, resultText := none, fs := emptyStore,
    writable := true, now := 0 }

/-- C7 witness: the theorem instantiated at a state whose bill text does
not parse as a number. -/
theorem calculate_validation_noop_witness :
    tipCompute st0.billIn st0.tipVal st0.peopleIn st0.roundUp =
      Except.error CalcError.InvalidBill ∧
    calculateStep st0 = some (st0, some CalcError.InvalidBill) :=
  ⟨rfl, calculate_validation_noop st0 CalcError.InvalidBill rfl⟩

/-- C6: on a valid calculation over a well-formed history store, the
calculate callback never raises: it displays the computed result whatever
the persistence outcome, and when the history file is not writable the
write failure is swallowed and the store is left unchanged. -/
theorem calculate_write_failure_swallowed (st : AppState) (bill : ℚ)
    (people : ℤ) (l : List Json) (h1 : st.billIn = some bill)
    (h2 : 0 ≤ bill) (h3 : st.peopleIn = some people) (h4 : 1 ≤ people)
    (h5 : load_history st.fs = Json.arr l) :
    ∃ fs2 : FileState, calculateStep st =
      some ({ st with
        resultText := some (mkDisplay st.currency bill st.tipVal people
          (computeCore bill st.tipVal people st.roundUp))
        fs := fs2 }, none) ∧
    (st.writable = false → fs2 = st.fs) := by
  have hneg : ¬ bill < 0 := not_lt.mpr h2
  have hlt : ¬ people < 1 := not_lt.mpr h4
  cases hw : st.writable with
  | false =>
      refine ⟨st.fs, ?_, fun _ => rfl⟩
      simp [calculateStep, h1, hneg, h3, hlt, save_history, h5, hw]
  | true =>
      refine ⟨storeOf ((entryJson st.now bill st.tipVal people
        (computeCore bill st.tipVal people st.roundUp) :: l).take 20),
        ?_, fun hcon => by simp [hw] at hcon⟩
      simp [calculateStep, h1, hneg, h3, hlt, save_history, h5, hw,
        storeOf]

/-- Application state used to witness the write-failure behaviour: valid
inputs over a well-formed store that is not writable. -/
def stW : AppState :=
  { billIn := some 50, tipVal := 15, peopleIn := some 2, roundUp := false,
    currency := defaultCurrency, resultText := none, fs := emptyStore,
    writable := false, now := 0 }

/-- C6 witness: the theorem instantiated at a valid calculation whose
history file is not writable. -/
theorem calculate_write_failure_swallowed_witness :
    stW.billIn = some 50 ∧ (0 : ℚ) ≤ 50 ∧ stW.peopleIn = some 2 ∧
    (1 : ℤ) ≤ 2 ∧ load_history stW.fs = Json.arr [] ∧
    (∃ fs2 : FileState, calculateStep stW =
      some ({ stW with
        resultText := some (mkDisplay stW.currency 50 stW.tipVal 2
          (computeCore 50 stW.tipVal 2 stW.roundUp))
        fs := fs2 }, none) ∧
      (stW.writable = false → fs2 = stW.fs)) :=
  ⟨rfl, by norm_num, rfl, by norm_num, rfl,
   calculate_write_failure_swallowed stW 50 2 [] rfl (by norm_num) rfl
     (by norm_num) rfl⟩

/-- C8: loading a selected history record is a silent no-op when nothing
is selected or when the index is out of range for the freshly loaded log;
on a valid index of a well-formed record it repopulates only the bill
text, the tip variable and the people variable, leaving the round-up
toggle, the displayed result and the store untouched. -/
theorem load_selected_frame (st st2 : AppState) (l : List Json) (idx : ℕ)
    (item : Json) (b t p : ℚ)
    (hload : load_history st.fs = Json.arr l)
    (hitem : l.get? idx = some item)
    (hb : jget item kBill = some (some (Json.num b)))
    (ht : jgetD item kTipPercent (Json.num 15) = some (Json.num t))
    (hp : jgetD item kPeople (Json.num 1) = some (Json.num p)) :
    loadSelectedStep none st2 = some st2 ∧
    (∀ j, l.length ≤ j → loadSelectedStep (some j) st = some st) ∧
    loadSelectedStep (some idx) st =
      some { st with
        billIn := some (fmt2 b)
        tipVal := t
        peopleIn := some (ratTrunc p) } := by
  refine ⟨rfl, ?_, ?_⟩
  · intro j hj
    simp only [loadSelectedStep, hload, jlen, if_pos hj]
  · have hlt : idx < l.length := by
      by_contra hcon
      push_neg at hcon
      rw [List.get?_eq_none.mpr hcon] at hitem
      exact absurd hitem (by simp)
    simp only [loadSelectedStep, hload, jlen, if_neg (not_le.mpr hlt),
      jindex, hitem, hb, ht, hp]

/-- History record used to witness loading a selection. -/
def rec0 : Json :=
  Json.obj [(kBill, Json.num 10), (kTipPercent, Json.num 15),
    (kPeople, Json.num 2)]

/-- Application state used to witness loading a selection: the store holds
the single record rec0. -/
def stH : AppState :=
  { billIn := some 0, tipVal := 15, peopleIn := some 1, roundUp := false,
    currency := defaultCurrency, resultText := none, fs := storeOf [rec0],
    writable := true, now := 0 }

/-- C8 witness: the theorem instantiated at the single-record store,
selecting index 0. -/
theorem load_selected_frame_witness :
    load_history stH.fs = Json.arr [rec0] ∧
    [rec0].get? 0 = some rec0 ∧
    jget rec0 kBill = some (some (Json.num 10)) ∧
    jgetD rec0 kTipPercent (Json.num 15) = some (Json.num 15) ∧
    jgetD rec0 kPeople (Json.num 1) = some (Json.num 2) ∧
    (loadSelectedStep none stH = some stH ∧
     (∀ j, ([rec0] : List Json).length ≤ j →
       loadSelectedStep (some j) stH = some stH) ∧
     loadSelectedStep (some 0) stH =
       some { stH with
         billIn := some (fmt2 10)
         tipVal := 15
         peopleIn := some (ratTrunc 2) }) :=
  ⟨rfl, rfl, rfl, rfl, rfl,
   load_selected_frame stH stH [rec0] 0 rec0 10 15 2 rfl rfl rfl rfl rfl⟩

end TipCalc
